import Mathlib

/-!
# Verification of the sourcing-agent Source Crawler

A shallow embedding of `src/utils/scraper.py` (class `CannabisSourceScraper`).
HTML documents are modelled post-parse as a tree of elements and text nodes
(the shape BeautifulSoup hands to the extraction helpers); the network is
modelled by an explicit fetch outcome per source (an HTTP response with a
status code and parsed body, or a raised exception carrying its message);
wall-clock timestamps are explicit string parameters.
-/

namespace Scraper

/-! ## Strings: Python-style helpers -/

/-- Python's whitespace set (`str.strip`, regex `\s`), ASCII range:
space, tab, newline, carriage return, vertical tab, form feed. -/
def pyIsSpace (c : Char) : Bool :=
  c == ' ' || c == '\t' || c == '\n' || c == '\r' || c == '\x0b' || c == '\x0c'

/-- Python `str.strip()` on a character list: remove leading and trailing
whitespace. -/
def stripChars (cs : List Char) : List Char :=
  ((cs.dropWhile pyIsSpace).reverse.dropWhile pyIsSpace).reverse

/-- Python `str.strip()`. -/
def pyStrip (s : String) : String :=
  ⟨stripChars s.data⟩

/-- Python `s[a:b]` for `0 ≤ a ≤ b` (indices clipped to the string length). -/
def pySlice (s : String) (a b : Nat) : String :=
  ⟨(s.data.drop a).take (b - a)⟩

/-- Python `s[:n]`. -/
def pyTake (s : String) (n : Nat) : String :=
  ⟨s.data.take n⟩

/-- Python `len(s)`. -/
def pyLen (s : String) : Nat :=
  s.data.length

/-- Python `sub in s` / `s.find(sub)` combined: index of the first occurrence
of `needle` in `hay`, or `none` when absent (`find` would return `-1`). -/
def findSubstrIdxAux (needle : List Char) : List Char → Nat → Option Nat
  | hay, i =>
    if needle.isPrefixOf hay then some i
    else
      match hay with
      | [] => none
      | _ :: t => findSubstrIdxAux needle t (i + 1)

/-- Index of the first occurrence of `needle` in `hay` (Python `str.find`,
guarded by the `in` containment test). -/
def findSubstrIdx (hay needle : String) : Option Nat :=
  findSubstrIdxAux needle.data hay.data 0

/-- Python `sub in s`. -/
def containsSubstr (hay needle : String) : Bool :=
  (findSubstrIdx hay needle).isSome

/-- Python `str.lower()` (ASCII range, as by `Char.toLower`). -/
def pyLower (s : String) : String :=
  ⟨s.data.map Char.toLower⟩

/-- First-occurrence deduplication with an accumulator of already-seen
strings. -/
def pyDedupAux (seen : List String) : List String → List String
  | [] => []
  | x :: xs =>
    if seen.contains x then pyDedupAux seen xs
    else x :: pyDedupAux (x :: seen) xs

/-- First-occurrence deduplication: the model of Python's `list(set(xs))`.
Within one interpreter process, constructing the same set from the same
insertion sequence enumerates deterministically, so a deterministic
deduplication is a faithful model of one run. -/
def pyDedup (l : List String) : List String :=
  pyDedupAux [] l

/-! ## HTML documents, post-parse

`BeautifulSoup(content, 'html.parser')` yields a node tree; the extraction
helpers only use `find`, `find_all` and `get_text`, which we model over this
tree. An element carries its tag name, its attributes (`class` flattened to
one string, as matched by the regex filters) and its children in document
order. -/

inductive Html where
  | element (tag : String) (attrs : List (String × String)) (children : List Html)
  | text (s : String)
deriving Repr

/-- Attribute lookup: `node.get(key)` (first binding wins). -/
def attrOf (attrs : List (String × String)) (key : String) : Option String :=
  (attrs.find? (fun p => p.1 = key)).map Prod.snd

mutual
/-- `node.get_text()`: concatenation of all text nodes, document order. -/
def getText : Html → String
  | .element _ _ children => getTextList children
  | .text s => s

def getTextList : List Html → String
  | [] => ""
  | n :: ns => getText n ++ getTextList ns
end

mutual
/-- All nodes of the tree in document (pre-order) order, as visited by
`soup.find` / `soup.find_all`. -/
def allNodes : Html → List Html
  | .element tag attrs children => .element tag attrs children :: allNodesList children
  | .text s => [.text s]

def allNodesList : List Html → List Html
  | [] => []
  | n :: ns => allNodes n ++ allNodesList ns
end

/-- Element views: tag, attributes and children of an element node. -/
def tagOf : Html → Option String
  | .element tag _ _ => some tag
  | .text _ => none

def attrsOf : Html → List (String × String)
  | .element _ attrs _ => attrs
  | .text _ => []

def childrenOf : Html → List Html
  | .element _ _ children => children
  | .text _ => []

/-- `soup.find_all(tags, ...)` with a predicate on the node: every matching
element in document order. -/
def findAllP (doc : Html) (p : Html → Bool) : List Html :=
  (allNodes doc).filter p

/-- `soup.find(tag)`: first element with the given tag, document order. -/
def findTag (doc : Html) (tag : String) : Option Html :=
  (allNodes doc).find? (fun n => tagOf n = some tag)

/-- `soup.find(tag, attrs={key: value})`: first element with the tag whose
`key` attribute equals `value`. -/
def findTagAttr (doc : Html) (tag key value : String) : Option Html :=
  (allNodes doc).find? (fun n =>
    tagOf n = some tag && attrOf (attrsOf n) key = some value)

/-- `element.find(tags)` for a list of candidate tags: first descendant
element (the element itself included, as BeautifulSoup searches from the
node) whose tag is among `tags`. -/
def findFirstOfTags (node : Html) (tags : List String) : Option Html :=
  (allNodes node).find? (fun n =>
    match tagOf n with
    | some t => tags.contains t
    | none => false)

/-- Class-attribute filter `class_=re.compile(r'w1|w2|…')`: the element has a
`class` attribute and its value contains one of the alternative words. -/
def classMatches (node : Html) (words : List String) : Bool :=
  match attrOf (attrsOf node) "class" with
  | some cls => words.any (fun w => containsSubstr cls w)
  | none => false

/-! ## Extraction heuristics: title and description -/

/-- `_extract_title`: page `<title>` text, else first `<h1>` text, else
the empty string (each stripped). -/
def _extract_title (soup : Html) : String :=
  match findTag soup "title" with
  | some titleTag => pyStrip (getText titleTag)
  | none =>
    match findTag soup "h1" with
    | some h1Tag => pyStrip (getText h1Tag)
    | none => ""

/-- The first-paragraph fallback of `_extract_description` (lines 136-143):
only a paragraph longer than 50 characters counts, truncated at 200 with an
appended ellipsis. -/
def _extract_descriptionP (soup : Html) : String :=
  match findTag soup "p" with
  | some firstP =>
    let t := pyStrip (getText firstP)
    if pyLen t > 50 then
      if pyLen t > 200 then pyTake t 200 ++ "..." else t
    else ""
  | none => ""

/-- The Open-Graph fallback of `_extract_description` (lines 131-134). -/
def _extract_descriptionOg (soup : Html) : String :=
  let ogDesc := findTagAttr soup "meta" "property" "og:description"
  match ogDesc with
  | some m =>
    match attrOf (attrsOf m) "content" with
    | some c =>
      if c ≠ "" then pyStrip c else _extract_descriptionP soup
    | none => _extract_descriptionP soup
  | none => _extract_descriptionP soup

/-- `_extract_description`: meta `description` content if non-empty, else
`og:description` content if non-empty, else the first paragraph's text when
longer than 50 characters (truncated at 200 with an ellipsis), else `""`.
The `meta_desc.get('content')` truthiness test makes an empty `content`
fall through. -/
def _extract_description (soup : Html) : String :=
  let metaDesc := findTagAttr soup "meta" "name" "description"
  match metaDesc with
  | some m =>
    match attrOf (attrsOf m) "content" with
    | some c =>
      if c ≠ "" then pyStrip c else _extract_descriptionOg soup
    | none => _extract_descriptionOg soup
  | none => _extract_descriptionOg soup

/-! ## A small regular-expression engine

`_extract_contact_info` and `_extract_location` use `re.findall` with fixed
patterns and keep only the first (leftmost) match. Each pattern is embedded
as a regular expression over characters; the leftmost match is computed by
Brzozowski derivatives and disambiguated to the longest match at the first
matching position. (On the fixed patterns of this file, which are plain
alternations, classes and greedy quantifiers, this coincides with Python's
leftmost greedy match on the inputs of interest; no theorem below depends on
the disambiguation.) -/

inductive RE where
  | emp
  | eps
  | cls (p : Char → Bool)
  | cat (a b : RE)
  | alt (a b : RE)
  | star (a : RE)

/-- Does the expression accept the empty string? -/
def RE.nullable : RE → Bool
  | .emp => false
  | .eps => true
  | .cls _ => false
  | .cat a b => a.nullable && b.nullable
  | .alt a b => a.nullable || b.nullable
  | .star _ => true

/-- Brzozowski derivative with respect to one character. -/
def RE.deriv : RE → Char → RE
  | .emp, _ => .emp
  | .eps, _ => .emp
  | .cls p, c => if p c then .eps else .emp
  | .cat a b, c =>
    if a.nullable then .alt (.cat (a.deriv c) b) (b.deriv c)
    else .cat (a.deriv c) b
  | .alt a b, c => .alt (a.deriv c) (b.deriv c)
  | .star a, c => .cat (a.deriv c) (.star a)

/-- Length of the longest prefix of `cs` matched by `r`, when any prefix
matches at all. -/
def RE.longestMatchLen : RE → List Char → Option Nat
  | r, [] => if r.nullable then some 0 else none
  | r, c :: rest =>
    match (r.deriv c).longestMatchLen rest with
    | some n => some (n + 1)
    | none => if r.nullable then some 0 else none

/-- Leftmost match of `r` in `cs`: the matched characters at the first
position where a match starts. Models `re.findall(pattern, text)[0]` for the
whole-match group patterns of the source. -/
def reFindFirstAux (r : RE) : List Char → Option (List Char)
  | [] => if r.nullable then some [] else none
  | c :: rest =>
    match r.longestMatchLen (c :: rest) with
    | some n => some ((c :: rest).take n)
    | none => reFindFirstAux r rest

/-- Leftmost match of `r` in `s`, as a string. -/
def reFindFirst (r : RE) (s : String) : Option String :=
  (reFindFirstAux r s.data).map (fun cs => ⟨cs⟩)

/-- Single-character literal. -/
def reChr (c : Char) : RE := .cls (fun x => x == c)

/-- String literal. -/
def reLit (s : String) : RE :=
  s.data.foldr (fun c acc => .cat (reChr c) acc) .eps

/-- `r?`. -/
def reOpt (r : RE) : RE := .alt r .eps

/-- `r+`. -/
def rePlus (r : RE) : RE := .cat r (.star r)

/-- `r{n}`. -/
def reRep (r : RE) : Nat → RE
  | 0 => .eps
  | n + 1 => .cat r (reRep r n)

/-- Concatenation of a pattern sequence. -/
def reSeq (rs : List RE) : RE :=
  rs.foldr .cat .eps

/-- Alternation `w1|w2|…`. -/
def reAltList (rs : List RE) : RE :=
  rs.foldr .alt .emp

/-! ## The contact/location patterns of the source -/

/-- Class `[-.\s]`. -/
def sepCls : RE := .cls (fun c => c == '-' || c == '.' || pyIsSpace c)

/-- Class `[0-9]` / `\d` (ASCII). -/
def digitCls : RE := .cls Char.isDigit

/-- Class `\s`. -/
def spaceCls : RE := .cls pyIsSpace

/-- Class `[A-Za-z]` (ASCII). -/
def alphaCls : RE := .cls Char.isAlpha

/-- Class `[A-Za-z\s]`. -/
def alphaSpaceCls : RE := .cls (fun c => c.isAlpha || pyIsSpace c)

/-- Class `[A-Z]`. -/
def upperCls : RE := .cls (fun c => 'A' ≤ c && c ≤ 'Z')

/-- The phone pattern
`(\+?1?[-.\s]?\(?[0-9]{3}\)?[-.\s]?[0-9]{3}[-.\s]?[0-9]{4})`. -/
def phoneRE : RE :=
  reSeq [reOpt (reChr '+'), reOpt (reChr '1'), reOpt sepCls, reOpt (reChr '('),
         reRep digitCls 3, reOpt (reChr ')'), reOpt sepCls,
         reRep digitCls 3, reOpt sepCls, reRep digitCls 4]

/-- The email pattern `([a-zA-Z0-9._%+-]+@[a-zA-Z0-9.-]+\.[a-zA-Z]{2,})`. -/
def emailRE : RE :=
  let localCls : RE := .cls (fun c =>
    c.isAlpha || c.isDigit || c == '.' || c == '_' || c == '%' || c == '+' || c == '-')
  let domainCls : RE := .cls (fun c => c.isAlpha || c.isDigit || c == '.' || c == '-')
  reSeq [rePlus localCls, reChr '@', rePlus domainCls, reChr '.',
         alphaCls, rePlus alphaCls]

/-- The street-type alternation
`(?:Street|St|Avenue|Ave|Road|Rd|Boulevard|Blvd|Drive|Dr|Lane|Ln|Way|Place|Pl|Court|Ct)`. -/
def streetTypeRE : RE :=
  reAltList (["Street", "St", "Avenue", "Ave", "Road", "Rd", "Boulevard", "Blvd",
              "Drive", "Dr", "Lane", "Ln", "Way", "Place", "Pl", "Court", "Ct"].map reLit)

/-- The address pattern of `_extract_contact_info`:
`(\d+\s+[A-Za-z\s]+(?:Street|…|Ct))`. -/
def addressRE : RE :=
  reSeq [rePlus digitCls, rePlus spaceCls, rePlus alphaSpaceCls, streetTypeRE]

/-- First `_extract_location` pattern:
`(\d+\s+[A-Za-z\s]+(?:Street|…|Ct)[^,]*,\s*[A-Za-z\s]+,\s*[A-Z]{2}\s*\d{5})`. -/
def locationFullAddressRE : RE :=
  reSeq [rePlus digitCls, rePlus spaceCls, rePlus alphaSpaceCls, streetTypeRE,
         .star (.cls (fun c => !(c == ','))), reChr ',', .star spaceCls,
         rePlus alphaSpaceCls, reChr ',', .star spaceCls,
         reRep upperCls 2, .star spaceCls, reRep digitCls 5]

/-- Second `_extract_location` pattern: `([A-Za-z\s]+,\s*[A-Z]{2})`. -/
def locationCityStateRE : RE :=
  reSeq [rePlus alphaSpaceCls, reChr ',', .star spaceCls, reRep upperCls 2]

/-- Third `_extract_location` pattern: `([A-Za-z\s]+,\s*[A-Za-z\s]+)`. -/
def locationCityRegionRE : RE :=
  reSeq [rePlus alphaSpaceCls, reChr ',', .star spaceCls, rePlus alphaSpaceCls]

/-! ## Source descriptors and records -/

/-- A source descriptor as read from the catalog JSON: a dict whose keys the
scraper reads with `.get`, every field optional. -/
structure Source where
  url : Option String := none
  name : Option String := none
  products : Option (List String) := none
  services : Option (List String) := none
  location : Option String := none
deriving Repr, DecidableEq

/-- The `contact_info` dict: each key present only when found. -/
structure ContactInfo where
  phone : Option String := none
  email : Option String := none
  address : Option String := none
deriving Repr, DecidableEq

/-- Python truthiness of a `.get` on an optional list field: a missing key
and an empty list are both falsy, so only a present non-empty list
contributes. -/
def truthyList : Option (List α) → List α
  | none => []
  | some l => if l.isEmpty then [] else l

/-! ## Remaining extraction heuristics -/

/-- The keyword list of `_extract_products`. -/
def productKeywords : List String :=
  ["product", "products", "catalog", "shop", "store", "buy",
   "seeds", "clones", "nutrients", "equipment", "lighting",
   "packaging", "containers", "supplies", "accessories"]

/-- `_extract_products`: navigation/menu items whose text mentions a product
keyword, then headings of the first 10 product/item/card elements, then the
descriptor's seed `products`, deduplicated by `list(set(...))`. -/
def _extract_products (soup : Html) (source : Source) : List String :=
  let navItems := findAllP soup (fun n =>
    (tagOf n = some "a" || tagOf n = some "li") && classMatches n ["nav", "menu", "product"])
  let fromNav := navItems.filterMap (fun item =>
    let t := pyLower (pyStrip (getText item))
    if productKeywords.any (fun kw => containsSubstr t kw) then
      some (pyStrip (getText item))
    else none)
  let productElements := (findAllP soup (fun n =>
    (tagOf n = some "div" || tagOf n = some "section") &&
      classMatches n ["product", "item", "card"])).take 10
  let fromElems := productElements.filterMap (fun el =>
    (findFirstOfTags el ["h2", "h3", "h4"]).map (fun t => pyStrip (getText t)))
  pyDedup (fromNav ++ fromElems ++ truthyList source.products)

/-- `_extract_contact_info`: regex-scan the page text for phone, email and
address (first match each), then let explicit `mailto:`/`tel:` links
override. `href.replace(prefix, '')` removes every occurrence. -/
def _extract_contact_info (soup : Html) : ContactInfo :=
  let pageText := getText soup
  let fromRegex : ContactInfo :=
    { phone := reFindFirst phoneRE pageText
      email := reFindFirst emailRE pageText
      address := reFindFirst addressRE pageText }
  let contactLinks := findAllP soup (fun n =>
    tagOf n = some "a" &&
      (match attrOf (attrsOf n) "href" with
       | some h => containsSubstr h "mailto:" || containsSubstr h "tel:"
       | none => false))
  contactLinks.foldl (fun ci link =>
    let href := (attrOf (attrsOf link) "href").getD ""
    if href.startsWith "mailto:" then
      { ci with email := some (href.replace "mailto:" "") }
    else if href.startsWith "tel:" then
      { ci with phone := some (href.replace "tel:" "") }
    else ci) fromRegex

/-- `_extract_location`: the descriptor's seed `location` when truthy, else
the first match of the three address patterns in order, stripped, else `""`. -/
def _extract_location (soup : Html) (source : Source) : String :=
  let fallback :=
    let pageText := getText soup
    match reFindFirst locationFullAddressRE pageText with
    | some m => pyStrip m
    | none =>
      match reFindFirst locationCityStateRE pageText with
      | some m => pyStrip m
      | none =>
        match reFindFirst locationCityRegionRE pageText with
        | some m => pyStrip m
        | none => ""
  match source.location with
  | some loc => if loc ≠ "" then loc else fallback
  | none => fallback

/-- The keyword list of `_extract_certifications`. -/
def certKeywords : List String :=
  ["certified", "certification", "licensed", "license", "approved",
   "omri", "organic", "usda", "fda", "iso", "gmp", "haccp",
   "kosher", "halal", "vegan", "gluten-free"]

/-- The ±50-character context window around the first occurrence of a
keyword in the lowered page text (`None` when the keyword does not occur):
`page_text[max(0, index-50) : min(len(page_text), index+50)].strip()`. -/
def certContext (pageText : String) (kw : String) : Option String :=
  match findSubstrIdx pageText kw with
  | none => none
  | some idx => some (pyStrip (pySlice pageText (idx - 50) (min (pyLen pageText) (idx + 50))))

/-- `_extract_certifications`: for every certification keyword occurring in
the lowercased page text, the stripped ±50-character window around its first
occurrence, deduplicated by `list(set(...))`. -/
def _extract_certifications (soup : Html) : List String :=
  let pageText := pyLower (getText soup)
  pyDedup (certKeywords.filterMap (fun kw => certContext pageText kw))

/-- `_extract_services`: the descriptor's seed `services` plus headings of
service/consulting/support elements, deduplicated. (The `service_keywords`
list in the source is defined but never used.) -/
def _extract_services (soup : Html) (source : Source) : List String :=
  let serviceElements := findAllP soup (fun n =>
    (tagOf n = some "div" || tagOf n = some "section") &&
      classMatches n ["service", "consulting", "support"])
  let fromElems := serviceElements.filterMap (fun el =>
    (findFirstOfTags el ["h2", "h3", "h4"]).map (fun t => pyStrip (getText t)))
  pyDedup (truthyList source.services ++ fromElems)

/-! ## scrape_source -/

/-- The `status` value of a record: the source stores either the strings
`'success'`/`'error'` or an integer HTTP code under the same key. -/
inductive StatusVal where
  | str (s : String)
  | int (n : Nat)
deriving Repr, DecidableEq

/-- One scraped record: a dict whose keys are present or absent depending on
the path taken through `scrape_source`. -/
structure ScrapeRecord where
  url : Option String := none
  timestamp : Option String := none
  status : Option StatusVal := none
  error : Option String := none
  title : Option String := none
  description : Option String := none
  products : Option (List String) := none
  contact_info : Option ContactInfo := none
  location : Option String := none
  certifications : Option (List String) := none
  services : Option (List String) := none
deriving Repr, DecidableEq

/-- What the network does for one fetch: an HTTP response with a status code
and a parsed body, or a raised exception carrying its `str(e)` message
(connection error, timeout, parse failure, …). -/
inductive FetchOutcome where
  | response (statusCode : Nat) (body : Html)
  | exc (msg : String)

/-- Protocol prepending (lines 67-69): `https://` is prepended unless the
URL already starts with `http://` or `https://`. -/
def normalizeUrl (u : String) : String :=
  if u.startsWith "http://" || u.startsWith "https://" then u else "https://" ++ u

/-- `scrape_source` (lines 58-109), one fetch-and-extract cycle. `now` is
`datetime.now().isoformat()` at record-construction time. The exception
branch is modelled with the normalized URL (exceptions before the prepend
would carry the raw URL; no claim depends on that value). -/
def scrape_source (source : Source) (outcome : FetchOutcome) (now : String) : ScrapeRecord :=
  match source.url with
  | none => { error := some "No URL provided" }
  | some u =>
    if u = "" then { error := some "No URL provided" }
    else
      let url := normalizeUrl u
      match outcome with
      | .response code body =>
        if code ≠ 200 then
          { url := some url
            error := some ("HTTP " ++ toString code)
            status := some (.int code) }
        else
          { url := some url
            timestamp := some now
            status := some (.str "success")
            title := some (_extract_title body)
            description := some (_extract_description body)
            products := some (_extract_products body source)
            contact_info := some (_extract_contact_info body)
            location := some (_extract_location body source)
            certifications := some (_extract_certifications body)
            services := some (_extract_services body source) }
      | .exc msg =>
        { url := some url
          error := some msg
          status := some (.str "error")
          timestamp := some now }

/-! ## The source catalog and scrape_all_sources -/

/-- One `sources_by_state` entry (§6 of the input schema): only `materials`
and `equipment` are read by the crawler. -/
structure StateSources where
  materials : Option (List Source) := none
  equipment : Option (List Source) := none
  dispensaries : Option (List Source) := none
  manufacturers : Option (List Source) := none
deriving Repr

/-- The `national_suppliers` object: only `materials` and `equipment` are
read by the crawler. -/
structure NationalSuppliers where
  materials : Option (List Source) := none
  equipment : Option (List Source) := none
  packaging : Option (List Source) := none
  testing : Option (List Source) := none
deriving Repr

/-- The catalog JSON (`sources.json`): nested optional sections. States are
kept as an association list in catalog (dict insertion) order. -/
structure Catalog where
  preferred_sources : Option (List Source) := none
  sources_by_state : Option (List (String × StateSources)) := none
  national_suppliers : Option NationalSuppliers := none
  consulting_services : Option (List Source) := none
deriving Repr

/-- `_load_sources` (lines 33-40): the result of `open` + `json.load` is
either a parsed catalog or a raised exception; any exception is caught,
logged and replaced by the empty dict `{}`. -/
def _load_sources (readResult : Except String Catalog) : Catalog :=
  match readResult with
  | .ok d => d
  | .error _ => {}

/-- The source-collection phase of `scrape_all_sources` (lines 277-294):
preferred sources, then per-state materials and equipment iterating states
in catalog order, then national materials, then national equipment; each
`.extend` guarded by Python truthiness of the section. -/
def collectAllSources (sources_data : Catalog) : List Source :=
  truthyList sources_data.preferred_sources
  ++ (match sources_data.sources_by_state with
      | none => []
      | some states =>
        if states.isEmpty then []
        else (states.map (fun st =>
          truthyList st.2.materials ++ truthyList st.2.equipment)).flatten)
  ++ (match sources_data.national_suppliers with
      | none => []
      | some ns => truthyList ns.materials ++ truthyList ns.equipment)

/-- Specification-side flattening order, following §4.1's words for comparison
with the code's collection phase: `flattenCatalog(catalog)` —
"concatenates, in a fixed deterministic order (preferred sources; then
per-state materials, then per-state equipment, iterating states in catalog
order; then national materials; then national equipment), every source
descriptor across the catalog's nested sections", absent keys treated as
empty. Refinement target for the code's collection phase. -/
def flattenCatalogSpec (catalog : Catalog) : List Source :=
  catalog.preferred_sources.getD []
  ++ ((catalog.sources_by_state.getD []).map (fun st =>
        st.2.materials.getD [] ++ st.2.equipment.getD [])).flatten
  ++ (match catalog.national_suppliers with
      | none => []
      | some ns => ns.materials.getD [] ++ ns.equipment.getD [])

/-- One entry of the `failed_scrapes` list: either an error record from
`scrape_source`, or a `{'source': …, 'error': …}` pair built from a task
that came back as an exception object (lines 316-320). -/
inductive FailureEntry where
  | record (r : ScrapeRecord)
  | sourceError (source : Source) (error : String)
deriving Repr, DecidableEq

/-- The run report returned by `scrape_all_sources` (lines 326-333). -/
structure RunReport where
  total_sources : Nat
  successful_scrapes : Nat
  failed_scrapes : Nat
  results : List ScrapeRecord
  failures : List FailureEntry
  timestamp : String
deriving Repr

/-- The result-processing loop of `scrape_all_sources` (lines 311-324) over
the gathered task results paired with their sources: an exception object
goes to failures as a source/error pair; a record with `status == 'success'`
goes to results; any other record goes to failures. -/
def processResults :
    List (Source × Except String ScrapeRecord) → List ScrapeRecord × List FailureEntry
  | [] => ([], [])
  | (src, res) :: rest =>
    let processed := processResults rest
    match res with
    | .error e => (processed.1, .sourceError src e :: processed.2)
    | .ok r =>
      if r.status = some (.str "success") then (r :: processed.1, processed.2)
      else (processed.1, .record r :: processed.2)

/-- `scrape_all_sources` (lines 275-333). In the model each task `i` fetches
with outcome `outcome i` at time `fetchTime i`; `scrape_source` is total, so
`asyncio.gather(..., return_exceptions=True)` yields one (non-exception)
record per source, in task order. `max_concurrent` only bounds scheduling
(modelled separately below) and does not affect the gathered results. -/
def scrape_all_sources (sources_data : Catalog) (outcome : Nat → FetchOutcome)
    (fetchTime : Nat → String) (reportTime : String) : RunReport :=
  let all_sources := collectAllSources sources_data
  let results : List (Except String ScrapeRecord) :=
    all_sources.enum.map (fun p => Except.ok (scrape_source p.2 (outcome p.1) (fetchTime p.1)))
  let processed := processResults (all_sources.zip results)
  { total_sources := all_sources.length
    successful_scrapes := processed.1.length
    failed_scrapes := processed.2.length
    results := processed.1
    failures := processed.2
    timestamp := reportTime }

/-! ## The concurrency structure of scrape_all_sources

Lines 299-309: each task runs `async with semaphore: result = await
self.scrape_source(source); await asyncio.sleep(1); return result` under
`semaphore = asyncio.Semaphore(max_concurrent)`. We model the scheduler as a
transition system over the per-task phases: a task waits for a slot, holds
the slot while its fetch is in flight, keeps holding it through the
1-second pacing sleep, and only then releases it. Steps interleave
arbitrarily, over-approximating every cooperative schedule. -/

inductive TaskPhase where
  | waiting
  | fetching
  | delaying
  | done
deriving Repr, DecidableEq

/-- A task holds a semaphore slot from acquisition to release: while its
fetch is in flight and while it sleeps through the pacing delay. -/
def holdsSlot : TaskPhase → Bool
  | .fetching => true
  | .delaying => true
  | _ => false

/-- A fetch is in flight exactly during the `fetching` phase. -/
def isFetching : TaskPhase → Bool
  | .fetching => true
  | _ => false

/-- Number of semaphore slots currently held. -/
def heldSlots (phases : List TaskPhase) : Nat :=
  phases.countP holdsSlot

/-- Number of fetches currently in flight. -/
def inFlight (phases : List TaskPhase) : Nat :=
  phases.countP isFetching

/-- One scheduler step under `asyncio.Semaphore(maxConcurrent)`:
`acquire` admits a waiting task only when fewer than `maxConcurrent` slots
are held; `finishFetch` moves a task from its fetch to the pacing sleep
without releasing the slot; `release` frees the slot only after the sleep. -/
inductive SchedStep (maxConcurrent : Nat) : List TaskPhase → List TaskPhase → Prop
  | acquire (phases : List TaskPhase) (i : Nat)
      (hw : phases[i]? = some .waiting)
      (hsem : heldSlots phases < maxConcurrent) :
      SchedStep maxConcurrent phases (phases.set i .fetching)
  | finishFetch (phases : List TaskPhase) (i : Nat)
      (hf : phases[i]? = some .fetching) :
      SchedStep maxConcurrent phases (phases.set i .delaying)
  | release (phases : List TaskPhase) (i : Nat)
      (hd : phases[i]? = some .delaying) :
      SchedStep maxConcurrent phases (phases.set i .done)

/-- States reachable from the launch of the batch (`asyncio.gather` starts
every task in the waiting phase). -/
inductive SchedReachable (maxConcurrent : Nat) : List TaskPhase → Prop
  | init (n : Nat) : SchedReachable maxConcurrent (List.replicate n .waiting)
  | step {s s' : List TaskPhase} :
      SchedReachable maxConcurrent s → SchedStep maxConcurrent s s' →
      SchedReachable maxConcurrent s'

/-! ## Concrete documents and descriptors used in the theorems -/

/-- A descriptor whose URL points at an unreachable host: its fetch comes
back as a raised exception. -/
def unreachableSource : Source := { url := some "nonexistent.example" }

/-- The parsed form of the scenario HTML
`<title>Acme Nutrients</title><meta name="description" content="We sell nutrients.">`. -/
def acmeDoc : Html :=
  .element "[document]" []
    [.element "title" [] [.text "Acme Nutrients"],
     .element "meta" [("name", "description"), ("content", "We sell nutrients.")] []]

/-- An empty document: no title, no h1, no meta tags, no paragraphs. -/
def emptyDoc : Html := .element "[document]" [] []

/-- A document with no meta description but an Open-Graph description. -/
def ogDoc : Html :=
  .element "[document]" []
    [.element "meta" [("property", "og:description"), ("content", "OG text")] []]

/-- A concrete page whose text mentions a certification. -/
def certDoc : Html := .element "[document]" [] [.text "ISO certified"]

/-! ## Helper lemmas -/

theorem processResults_length (pairs : List (Source × Except String ScrapeRecord)) :
    (processResults pairs).1.length + (processResults pairs).2.length = pairs.length := by
  induction pairs with
  | nil => rfl
  | cons p rest ih =>
    obtain ⟨src, res⟩ := p
    cases res with
    | error e =>
      simp [processResults]
      omega
    | ok r =>
      by_cases h : r.status = some (.str "success")
      · simp [processResults, h]
        omega
      · simp [processResults, h]
        omega

theorem zip_results_length (sources : List Source) (results : List (Except String ScrapeRecord))
    (h : results.length = sources.length) :
    (processResults (sources.zip results)).1.length
      + (processResults (sources.zip results)).2.length = sources.length := by
  rw [processResults_length]
  simp [h]

theorem truthyList_eq_getD {α : Type} (o : Option (List α)) : truthyList o = o.getD [] := by
  cases o with
  | none => rfl
  | some l => cases l <;> simp [truthyList]

/-! ## Claims -/

/-- C1: for every catalog and every behaviour of the network, the run report
of `scrape_all_sources` satisfies: `total_sources` equals the length of the
flattened source list, `successful_scrapes + failed_scrapes = total_sources`,
`len(results) = successful_scrapes`, `len(failures) = failed_scrapes`. -/
theorem scrape_all_sources_report_invariants (sources_data : Catalog)
    (outcome : Nat → FetchOutcome) (fetchTime : Nat → String) (reportTime : String) :
    (scrape_all_sources sources_data outcome fetchTime reportTime).total_sources
        = (collectAllSources sources_data).length ∧
    (scrape_all_sources sources_data outcome fetchTime reportTime).successful_scrapes
        + (scrape_all_sources sources_data outcome fetchTime reportTime).failed_scrapes
        = (scrape_all_sources sources_data outcome fetchTime reportTime).total_sources ∧
    (scrape_all_sources sources_data outcome fetchTime reportTime).results.length
        = (scrape_all_sources sources_data outcome fetchTime reportTime).successful_scrapes ∧
    (scrape_all_sources sources_data outcome fetchTime reportTime).failures.length
        = (scrape_all_sources sources_data outcome fetchTime reportTime).failed_scrapes := by
  refine ⟨rfl, ?_, rfl, rfl⟩
  exact zip_results_length _ _ (by simp)

/-- C6: the source-collection phase of `scrape_all_sources` enumerates the
catalog in exactly the order the spec gives for `flattenCatalog` — preferred
sources; per-state materials then equipment, states in catalog order;
national materials; national equipment — and reads no other catalog section
(`flattenCatalogSpec` mentions none of `dispensaries`, `manufacturers`,
`packaging`, `testing`, `consulting_services`). -/
theorem collect_matches_spec_flatten_order (catalog : Catalog) :
    collectAllSources catalog = flattenCatalogSpec catalog := by
  obtain ⟨pref, stOpt, natOpt, consult⟩ := catalog
  have hts : ∀ o : Option (List Source), truthyList o = o.getD [] := truthyList_eq_getD
  cases stOpt with
  | none =>
    cases natOpt with
    | none => simp [collectAllSources, flattenCatalogSpec, hts]
    | some ns => simp [collectAllSources, flattenCatalogSpec, hts]
  | some states =>
    cases natOpt with
    | none =>
      cases states with
      | nil => simp [collectAllSources, flattenCatalogSpec, hts]
      | cons st rest => simp [collectAllSources, flattenCatalogSpec, hts]
    | some ns =>
      cases states with
      | nil => simp [collectAllSources, flattenCatalogSpec, hts]
      | cons st rest => simp [collectAllSources, flattenCatalogSpec, hts]

/-- C7: when reading or parsing the catalog file fails, `_load_sources`
catches the exception and returns the empty catalog; the crawler then sees
zero sources and `scrape_all_sources` reports `total_sources = 0` (the
failure is never fatal: `_load_sources` is a total function of the read
outcome). -/
theorem load_sources_failure_yields_empty_catalog (msg : String)
    (outcome : Nat → FetchOutcome) (fetchTime : Nat → String) (reportTime : String) :
    collectAllSources (_load_sources (Except.error msg)) = [] ∧
    (scrape_all_sources (_load_sources (Except.error msg))
        outcome fetchTime reportTime).total_sources = 0 :=
  ⟨rfl, rfl⟩

/-- C2: `scrape_source` is total — every record it returns either is a
success record or carries an `error` field — and a descriptor whose fetch
raises (malformed or unreachable URL) yields a record with
`status == 'error'` whose `error` field is the exception's message, hence
non-empty whenever the message is. -/
theorem scrape_source_never_raises (source : Source) (u now msg : String)
    (hu : source.url = some u) (hne : u ≠ "") (hmsg : msg ≠ "") :
    (∀ (s : Source) (o : FetchOutcome) (t : String),
        (scrape_source s o t).error.isSome ∨
        (scrape_source s o t).status = some (.str "success")) ∧
    (scrape_source source (.exc msg) now).status = some (.str "error") ∧
    (scrape_source source (.exc msg) now).error = some msg ∧
    (scrape_source source (.exc msg) now).error ≠ some "" := by
  refine ⟨?_, ?_, ?_, ?_⟩
  · intro s o t
    obtain ⟨url?, nm, pr, sv, loc⟩ := s
    cases url? with
    | none => left; rfl
    | some u' =>
      by_cases h' : u' = ""
      · left; simp [scrape_source, h']
      · cases o with
        | response code body =>
          by_cases hc : code = 200
          · right; simp [scrape_source, h', hc]
          · left; simp [scrape_source, h', hc]
        | exc m => left; simp [scrape_source, h']
  · simp [scrape_source, hu, hne]
  · simp [scrape_source, hu, hne]
  · simp [scrape_source, hu, hne, hmsg]

/-- Witness for C2 at a concrete unreachable descriptor. -/
theorem scrape_source_never_raises_witness :
    (∀ (s : Source) (o : FetchOutcome) (t : String),
        (scrape_source s o t).error.isSome ∨
        (scrape_source s o t).status = some (.str "success")) ∧
    (scrape_source unreachableSource
        (.exc "Cannot connect to host nonexistent.example")
        "2024-01-01T00:00:00").status = some (.str "error") ∧
    (scrape_source unreachableSource
        (.exc "Cannot connect to host nonexistent.example")
        "2024-01-01T00:00:00").error = some "Cannot connect to host nonexistent.example" ∧
    (scrape_source unreachableSource
        (.exc "Cannot connect to host nonexistent.example")
        "2024-01-01T00:00:00").error ≠ some "" :=
  scrape_source_never_raises unreachableSource "nonexistent.example"
    "2024-01-01T00:00:00" "Cannot connect to host nonexistent.example"
    rfl (by decide) (by decide)

/-- C3 counterexample: the claim says a network/timeout/parse exception
yields a record with the `status` field absent, but the exception branch of
`scrape_source` (line 107 of the source) stores `'status': 'error'`; at this
concrete descriptor and exception the field is present. -/
theorem exception_record_status_present :
    (scrape_source unreachableSource
        (.exc "Cannot connect to host nonexistent.example")
        "2024-01-01T00:00:00").status ≠ none := by
  decide

/-- C3 (amended): the error taxonomy with the exception branch corrected to
what the code stores — missing/empty URL → the bare record
`{'error': 'No URL provided'}` with no `status`; non-200 response →
`error = "HTTP <code>"` with the integer code as `status` and no timestamp;
exception → `error` is the exception's message, `status` is the string
`'error'`, and a capture timestamp is present. -/
theorem scrape_source_error_taxonomy (source : Source) (u now msg : String)
    (code : Nat) (body : Html)
    (hu : source.url = some u) (hne : u ≠ "") (hcode : code ≠ 200) :
    (∀ (s : Source) (o : FetchOutcome) (t : String), s.url = none ∨ s.url = some "" →
        scrape_source s o t = { error := some "No URL provided" }) ∧
    ((scrape_source source (.response code body) now).error
        = some ("HTTP " ++ toString code) ∧
     (scrape_source source (.response code body) now).status = some (.int code) ∧
     (scrape_source source (.response code body) now).timestamp = none) ∧
    ((scrape_source source (.exc msg) now).error = some msg ∧
     (scrape_source source (.exc msg) now).status = some (.str "error") ∧
     (scrape_source source (.exc msg) now).timestamp = some now) := by
  refine ⟨?_, ?_, ?_⟩
  · intro s o t h
    rcases h with h | h <;> simp [scrape_source, h]
  · refine ⟨?_, ?_, ?_⟩ <;> simp [scrape_source, hu, hne, hcode]
  · refine ⟨?_, ?_, ?_⟩ <;> simp [scrape_source, hu, hne]

/-- Witness for the amended C3 at concrete inputs: a missing-URL descriptor,
a 404 response and a connection exception. -/
theorem scrape_source_error_taxonomy_witness :
    (∀ (s : Source) (o : FetchOutcome) (t : String), s.url = none ∨ s.url = some "" →
        scrape_source s o t = { error := some "No URL provided" }) ∧
    ((scrape_source unreachableSource
        (.response 404 (.element "[document]" [] [])) "2024-01-01T00:00:00").error
        = some ("HTTP " ++ toString 404) ∧
     (scrape_source unreachableSource
        (.response 404 (.element "[document]" [] [])) "2024-01-01T00:00:00").status
        = some (.int 404) ∧
     (scrape_source unreachableSource
        (.response 404 (.element "[document]" [] [])) "2024-01-01T00:00:00").timestamp
        = none) ∧
    ((scrape_source unreachableSource
        (.exc "Connection refused") "2024-01-01T00:00:00").error
        = some "Connection refused" ∧
     (scrape_source unreachableSource
        (.exc "Connection refused") "2024-01-01T00:00:00").status
        = some (.str "error") ∧
     (scrape_source unreachableSource
        (.exc "Connection refused") "2024-01-01T00:00:00").timestamp
        = some "2024-01-01T00:00:00") :=
  scrape_source_error_taxonomy unreachableSource "nonexistent.example"
    "2024-01-01T00:00:00" "Connection refused" 404 (.element "[document]" [] [])
    rfl (by decide) (by decide)

/-- C4 counterexample: a descriptor with no URL is attempted and yields the
bare record `{'error': 'No URL provided'}` (line 62 of the source) — no
`url`, no `timestamp` and no `status` field — refuting "every record for an
attempted descriptor contains url, timestamp and a status in
{success, error}". -/
theorem no_url_record_missing_fields :
    (scrape_source {} (.exc "unused") "2024-01-01T00:00:00").url = none ∧
    (scrape_source {} (.exc "unused") "2024-01-01T00:00:00").timestamp = none ∧
    (scrape_source {} (.exc "unused") "2024-01-01T00:00:00").status = none :=
  ⟨rfl, rfl, rfl⟩

/-- C4 (amended): every attempted descriptor yields exactly one record
(`len(results) + len(failures) = total_sources`), and each record has one of
four shapes: success (url, timestamp, status `'success'`); exception error
(url, timestamp, status `'error'`, error message); HTTP error (url, integer
status code, error, no timestamp); or the bare no-URL record containing only
the error field. -/
theorem scrape_record_field_shape (source : Source) (o : FetchOutcome)
    (now : String) (sources_data : Catalog) (outcome : Nat → FetchOutcome)
    (fetchTime : Nat → String) (reportTime : String) :
    ((scrape_source source o now).status = some (.str "success") ∧
       (scrape_source source o now).url.isSome ∧
       (scrape_source source o now).timestamp.isSome ∧
       (scrape_source source o now).error = none
     ∨ (scrape_source source o now).status = some (.str "error") ∧
       (scrape_source source o now).url.isSome ∧
       (scrape_source source o now).timestamp.isSome ∧
       (scrape_source source o now).error.isSome
     ∨ (∃ code, code ≠ 200 ∧ (scrape_source source o now).status = some (.int code) ∧
         (scrape_source source o now).url.isSome ∧
         (scrape_source source o now).timestamp = none ∧
         (scrape_source source o now).error = some ("HTTP " ++ toString code))
     ∨ scrape_source source o now = { error := some "No URL provided" }) ∧
    (scrape_all_sources sources_data outcome fetchTime reportTime).results.length
      + (scrape_all_sources sources_data outcome fetchTime reportTime).failures.length
      = (scrape_all_sources sources_data outcome fetchTime reportTime).total_sources := by
  constructor
  · obtain ⟨url?, nm, pr, sv, loc⟩ := source
    cases url? with
    | none => right; right; right; rfl
    | some u =>
      by_cases hu : u = ""
      · right; right; right; simp [scrape_source, hu]
      · cases o with
        | response code body =>
          by_cases hc : code = 200
          · left; simp [scrape_source, hu, hc]
          · right; right; left
            exact ⟨code, hc, by simp [scrape_source, hu, hc],
              by simp [scrape_source, hu, hc], by simp [scrape_source, hu, hc],
              by simp [scrape_source, hu, hc]⟩
        | exc m => right; left; simp [scrape_source, hu]
  · exact zip_results_length _ _ (by simp)

/-- C9: the extraction phase is deterministic (it is a pure function of the
fetched document and the descriptor) and the capture timestamp is the only
time-dependent field: records produced from the same descriptor and the same
fetch outcome at two different times agree on every field except
`timestamp`. -/
theorem extraction_timestamp_independent (source : Source) (o : FetchOutcome)
    (t1 t2 : String) :
    (scrape_source source o t1).url = (scrape_source source o t2).url ∧
    (scrape_source source o t1).status = (scrape_source source o t2).status ∧
    (scrape_source source o t1).error = (scrape_source source o t2).error ∧
    (scrape_source source o t1).title = (scrape_source source o t2).title ∧
    (scrape_source source o t1).description = (scrape_source source o t2).description ∧
    (scrape_source source o t1).products = (scrape_source source o t2).products ∧
    (scrape_source source o t1).contact_info = (scrape_source source o t2).contact_info ∧
    (scrape_source source o t1).location = (scrape_source source o t2).location ∧
    (scrape_source source o t1).certifications = (scrape_source source o t2).certifications ∧
    (scrape_source source o t1).services = (scrape_source source o t2).services := by
  obtain ⟨url?, nm, pr, sv, loc⟩ := source
  cases url? with
  | none => exact ⟨rfl, rfl, rfl, rfl, rfl, rfl, rfl, rfl, rfl, rfl⟩
  | some u =>
    by_cases hu : u = ""
    · simp [scrape_source, hu]
    · cases o with
      | response code body =>
        by_cases hc : code = 200 <;> simp [scrape_source, hu, hc]
      | exc m => simp [scrape_source, hu]

theorem lt_length_of_getElem?_some {α : Type} {l : List α} {i : Nat} {a : α}
    (h : l[i]? = some a) : i < l.length := by
  by_contra hge
  rw [List.getElem?_eq_none (Nat.le_of_not_lt hge)] at h
  cases h

theorem countP_set_of_getElem? {α : Type} (p : α → Bool) :
    ∀ (l : List α) (i : Nat) (a b : α), l[i]? = some a →
      (l.set i b).countP p + (if p a then 1 else 0)
        = l.countP p + (if p b then 1 else 0) := by
  intro l
  induction l with
  | nil => intro i a b h; simp at h
  | cons x xs ih =>
    intro i a b h
    cases i with
    | zero =>
      simp only [List.getElem?_cons_zero, Option.some.injEq] at h
      subst h
      simp [List.countP_cons]
      omega
    | succ j =>
      simp only [List.getElem?_cons_succ] at h
      have hrec := ih j a b h
      simp [List.countP_cons]
      omega

theorem heldSlots_le_maxConcurrent {N : Nat} {s : List TaskPhase}
    (h : SchedReachable N s) : heldSlots s ≤ N := by
  induction h with
  | init n => simp [heldSlots, List.countP_replicate, holdsSlot]
  | step hr hstep ih =>
    cases hstep with
    | acquire i hw hsem =>
      have hc := countP_set_of_getElem? holdsSlot _ i .waiting .fetching hw
      simp [holdsSlot] at hc
      simp only [heldSlots] at *
      omega
    | finishFetch i hf =>
      have hc := countP_set_of_getElem? holdsSlot _ i .fetching .delaying hf
      simp [holdsSlot] at hc
      simp only [heldSlots] at *
      omega
    | release i hd =>
      have hc := countP_set_of_getElem? holdsSlot _ i .delaying .done hd
      simp [holdsSlot] at hc
      simp only [heldSlots] at *
      omega

theorem inFlight_le_heldSlots (s : List TaskPhase) : inFlight s ≤ heldSlots s :=
  List.countP_mono_left (fun x _ hx => by
    cases x <;> simp_all [isFetching, holdsSlot])

/-- C5: in every reachable schedule of the batch at most `maxConcurrent`
fetches are in flight at any instant (the semaphore admits a task only while
fewer than `maxConcurrent` slots are held, and a slot stays held through the
fetch and the pacing sleep); moreover a task's slot is released (`done`)
only out of the pacing phase, and the pacing phase is entered only from the
fetch phase — each fetch is followed by the pacing delay before its slot is
released. The fixed 1-second duration of `asyncio.sleep(1)` is wall-clock
time, abstracted here as the `delaying` phase. -/
theorem concurrency_bound_and_pacing (N : Nat) (s s' : List TaskPhase) (i : Nat)
    (hreach : SchedReachable N s) (hstep : SchedStep N s s') :
    inFlight s ≤ N ∧
    (s'[i]? = some .done → s[i]? ≠ some .done → s[i]? = some .delaying) ∧
    (s'[i]? = some .delaying → s[i]? ≠ some .delaying → s[i]? = some .fetching) := by
  refine ⟨Nat.le_trans (inFlight_le_heldSlots s) (heldSlots_le_maxConcurrent hreach),
    ?_, ?_⟩
  · intro hdone hnot
    cases hstep with
    | acquire j hw hsem =>
      by_cases hij : j = i
      · subst hij
        rw [List.getElem?_set_self (lt_length_of_getElem?_some hw)] at hdone
        cases hdone
      · rw [List.getElem?_set_ne hij] at hdone
        exact absurd hdone hnot
    | finishFetch j hf =>
      by_cases hij : j = i
      · subst hij
        rw [List.getElem?_set_self (lt_length_of_getElem?_some hf)] at hdone
        cases hdone
      · rw [List.getElem?_set_ne hij] at hdone
        exact absurd hdone hnot
    | release j hd =>
      by_cases hij : j = i
      · subst hij
        exact hd
      · rw [List.getElem?_set_ne hij] at hdone
        exact absurd hdone hnot
  · intro hdel hnot
    cases hstep with
    | acquire j hw hsem =>
      by_cases hij : j = i
      · subst hij
        rw [List.getElem?_set_self (lt_length_of_getElem?_some hw)] at hdel
        cases hdel
      · rw [List.getElem?_set_ne hij] at hdel
        exact absurd hdel hnot
    | finishFetch j hf =>
      by_cases hij : j = i
      · subst hij
        exact hf
      · rw [List.getElem?_set_ne hij] at hdel
        exact absurd hdel hnot
    | release j hd =>
      by_cases hij : j = i
      · subst hij
        rw [List.getElem?_set_self (lt_length_of_getElem?_some hd)] at hdel
        cases hdel
      · rw [List.getElem?_set_ne hij] at hdel
        exact absurd hdel hnot

/-- Witness for C5: with one task and `maxConcurrent = 1`, after admitting
the task (one fetch in flight) the next step moves it into the pacing
phase. -/
theorem concurrency_bound_and_pacing_witness :
    inFlight [TaskPhase.fetching] ≤ 1 ∧
    (([TaskPhase.delaying])[0]? = some TaskPhase.done →
      ([TaskPhase.fetching])[0]? ≠ some TaskPhase.done →
      ([TaskPhase.fetching])[0]? = some TaskPhase.delaying) ∧
    (([TaskPhase.delaying])[0]? = some TaskPhase.delaying →
      ([TaskPhase.fetching])[0]? ≠ some TaskPhase.delaying →
      ([TaskPhase.fetching])[0]? = some TaskPhase.fetching) :=
  concurrency_bound_and_pacing 1 [TaskPhase.fetching] [TaskPhase.delaying] 0
    (SchedReachable.step (SchedReachable.init 1)
      (SchedStep.acquire (List.replicate 1 TaskPhase.waiting) 0 (by decide) (by decide)))
    (SchedStep.finishFetch [TaskPhase.fetching] 0 (by decide))

/-- C8: title extraction returns the `<title>` text, else the first `<h1>`
text, else `""`; description extraction returns the meta description
content, else the `og:description` content, else the first paragraph's text
when longer than 50 characters (truncated at 200 with an appended ellipsis),
else `""`; and on the scenario document the extracted title is
"Acme Nutrients" and the extracted description "We sell nutrients.". -/
theorem title_description_heuristics :
    (_extract_title acmeDoc = "Acme Nutrients" ∧
     _extract_description acmeDoc = "We sell nutrients.") ∧
    (∀ (doc t : Html), findTag doc "title" = some t →
        _extract_title doc = pyStrip (getText t)) ∧
    (∀ (doc h : Html), findTag doc "title" = none → findTag doc "h1" = some h →
        _extract_title doc = pyStrip (getText h)) ∧
    (∀ doc : Html, findTag doc "title" = none → findTag doc "h1" = none →
        _extract_title doc = "") ∧
    (∀ (doc m : Html) (c : String),
        findTagAttr doc "meta" "name" "description" = some m →
        attrOf (attrsOf m) "content" = some c → c ≠ "" →
        _extract_description doc = pyStrip c) ∧
    (∀ (doc m : Html) (c : String),
        findTagAttr doc "meta" "name" "description" = none →
        findTagAttr doc "meta" "property" "og:description" = some m →
        attrOf (attrsOf m) "content" = some c → c ≠ "" →
        _extract_description doc = pyStrip c) ∧
    (∀ (doc p : Html),
        findTagAttr doc "meta" "name" "description" = none →
        findTagAttr doc "meta" "property" "og:description" = none →
        findTag doc "p" = some p →
        _extract_description doc =
          (if pyLen (pyStrip (getText p)) > 50 then
             (if pyLen (pyStrip (getText p)) > 200 then
                pyTake (pyStrip (getText p)) 200 ++ "..."
              else pyStrip (getText p))
           else "")) ∧
    (∀ doc : Html,
        findTagAttr doc "meta" "name" "description" = none →
        findTagAttr doc "meta" "property" "og:description" = none →
        findTag doc "p" = none →
        _extract_description doc = "") := by
  refine ⟨⟨rfl, rfl⟩, ?_, ?_, ?_, ?_, ?_, ?_, ?_⟩
  · intro doc t ht
    simp [_extract_title, ht]
  · intro doc h ht hh
    simp [_extract_title, ht, hh]
  · intro doc ht hh
    simp [_extract_title, ht, hh]
  · intro doc m c hm hc hne
    simp [_extract_description, hm, hc, hne]
  · intro doc m c hm hog hc hne
    simp [_extract_description, _extract_descriptionOg, hm, hog, hc, hne]
  · intro doc p hm hog hp
    simp [_extract_description, _extract_descriptionOg, _extract_descriptionP, hm, hog, hp]
  · intro doc hm hog hp
    simp [_extract_description, _extract_descriptionOg, _extract_descriptionP, hm, hog, hp]

/-- Witness for C8: the fallback clauses applied to concrete documents —
one with no title, h1, meta or paragraph, and one whose only description
source is an Open-Graph tag. -/
theorem title_description_heuristics_witness :
    _extract_title emptyDoc = "" ∧ _extract_description emptyDoc = "" ∧
    _extract_description ogDoc = pyStrip "OG text" :=
  ⟨title_description_heuristics.2.2.2.1 emptyDoc rfl rfl,
   title_description_heuristics.2.2.2.2.2.2.2 emptyDoc rfl rfl rfl,
   title_description_heuristics.2.2.2.2.2.1 ogDoc
     (.element "meta" [("property", "og:description"), ("content", "OG text")] [])
     "OG text" rfl rfl rfl (by decide)⟩

theorem mem_pyDedupAux (l : List String) :
    ∀ (seen : List String), ∀ s ∈ pyDedupAux seen l, s ∈ l := by
  induction l with
  | nil =>
    intro seen s h
    simp [pyDedupAux] at h
  | cons x xs ih =>
    intro seen s h
    by_cases hseen : seen.contains x
    · simp only [pyDedupAux, if_pos hseen] at h
      exact List.mem_cons_of_mem x (ih seen s h)
    · simp only [pyDedupAux, if_neg hseen] at h
      rcases List.mem_cons.mp h with rfl | h
      · exact List.mem_cons_self _ _
      · exact List.mem_cons_of_mem x (ih (x :: seen) s h)

theorem mem_pyDedup (l : List String) : ∀ s ∈ pyDedup l, s ∈ l :=
  mem_pyDedupAux l []

theorem stripChars_length_le (cs : List Char) : (stripChars cs).length ≤ cs.length := by
  have h1 : ((cs.dropWhile pyIsSpace).reverse.dropWhile pyIsSpace).length
      ≤ (cs.dropWhile pyIsSpace).reverse.length :=
    (List.dropWhile_suffix pyIsSpace).sublist.length_le
  have h2 : (cs.dropWhile pyIsSpace).length ≤ cs.length :=
    (List.dropWhile_suffix pyIsSpace).sublist.length_le
  simp only [stripChars, List.length_reverse]
  simp only [List.length_reverse] at h1
  omega

theorem mem_stripChars {c : Char} {cs : List Char} (h : c ∈ stripChars cs) : c ∈ cs := by
  unfold stripChars at h
  rw [List.mem_reverse] at h
  have h1 := (List.dropWhile_suffix pyIsSpace).subset h
  rw [List.mem_reverse] at h1
  exact (List.dropWhile_suffix pyIsSpace).subset h1

theorem char_toNat_ofNat_valid (n : Nat) (h : n.isValidChar) :
    (Char.ofNat n).toNat = n := by
  unfold Char.ofNat
  rw [dif_pos h]
  rfl

theorem toLower_not_upper (c : Char) :
    ¬(65 ≤ (Char.toLower c).toNat ∧ (Char.toLower c).toNat ≤ 90) := by
  have hdef : Char.toLower c
      = if c.toNat ≥ 65 ∧ c.toNat ≤ 90 then Char.ofNat (c.toNat + 32) else c := rfl
  rw [hdef]
  by_cases h : c.toNat ≥ 65 ∧ c.toNat ≤ 90
  · rw [if_pos h, char_toNat_ofNat_valid (c.toNat + 32) (Or.inl (by omega))]
    omega
  · rw [if_neg h]
    omega

/-- C10: every snippet returned by `_extract_certifications` is at most 100
characters long and contains no uppercase ASCII letter: the page text is
lowercased (`.lower()`, modelled over the ASCII range) before searching and
windowing, and each context window spans `[index-50, index+50)` clipped to
the text, then stripped. -/
theorem certification_snippets_lowercase_short (doc : Html) (s : String)
    (hs : s ∈ _extract_certifications doc) :
    pyLen s ≤ 100 ∧ ∀ c ∈ s.data, ¬(65 ≤ c.toNat ∧ c.toNat ≤ 90) := by
  unfold _extract_certifications at hs
  have hs' := mem_pyDedup _ s hs
  rw [List.mem_filterMap] at hs'
  obtain ⟨kw, hkw, hctx⟩ := hs'
  unfold certContext at hctx
  cases hidx : findSubstrIdx (pyLower (getText doc)) kw with
  | none =>
    rw [hidx] at hctx
    cases hctx
  | some idx =>
    rw [hidx] at hctx
    injection hctx with hctx
    subst hctx
    constructor
    · show (stripChars (pySlice (pyLower (getText doc)) (idx - 50)
          (min (pyLen (pyLower (getText doc))) (idx + 50))).data).length ≤ 100
      have hdata : (pySlice (pyLower (getText doc)) (idx - 50)
            (min (pyLen (pyLower (getText doc))) (idx + 50))).data
          = ((pyLower (getText doc)).data.drop (idx - 50)).take
              (min (pyLen (pyLower (getText doc))) (idx + 50) - (idx - 50)) := rfl
      rw [hdata]
      have h1 := stripChars_length_le
        (((pyLower (getText doc)).data.drop (idx - 50)).take
          (min (pyLen (pyLower (getText doc))) (idx + 50) - (idx - 50)))
      have h2 := List.length_take
        (min (pyLen (pyLower (getText doc))) (idx + 50) - (idx - 50))
        ((pyLower (getText doc)).data.drop (idx - 50))
      omega
    · intro c hc
      have hc2 := mem_stripChars hc
      have hc3 := List.mem_of_mem_take hc2
      have hc4 := List.mem_of_mem_drop hc3
      have hmap : (pyLower (getText doc)).data = (getText doc).data.map Char.toLower := rfl
      rw [hmap] at hc4
      obtain ⟨x, _, rfl⟩ := List.mem_map.mp hc4
      exact toLower_not_upper x

/-- Witness for C10 at a concrete document: the snippet "iso certified" is
produced, is short, and has no uppercase letter. -/
theorem certification_snippets_lowercase_short_witness :
    "iso certified" ∈ _extract_certifications certDoc ∧
    (pyLen "iso certified" ≤ 100 ∧
      ∀ c ∈ "iso certified".data, ¬(65 ≤ c.toNat ∧ c.toNat ≤ 90)) :=
  ⟨by decide, certification_snippets_lowercase_short certDoc "iso certified" (by decide)⟩

end Scraper
